import Mathlib

/-!
Verification development for the `rosbag_io` class of the rose repository
(src/ros/src/rose_core/src/rosbag_io.cpp and its headers).

The class wraps the external rosbag container library (spec §6 treats it as
an opaque collaborator).  We embed a recording as its chronologically
ordered list of records; a `rosbag::View` over a bag is the sublist of
records matching the view's topic query and (optional) time bounds, and
`View::getConnections` enumerates exactly the connections that contribute
at least one record to the view (the library skips connections whose
message range is empty).  Key facts of the library preserved by the model:

* `rosbag::TopicQuery(ts)` matches a connection iff its topic is a member
  of `ts`; in particular an EMPTY topic list matches NO connection.
* A view constructed with time bounds `(start, stop)` keeps exactly the
  records with `start ≤ t ≤ stop` (both bounds inclusive).
* `std::map<std::string, std::string>` (the `ConnectionsMap`) keeps its
  entries with unique keys in strictly ascending key order; assignment
  `m[k] = v` overwrites the value at an existing key.

Timestamps (`ros::Time`) are modelled as natural numbers with their usual
order; `ros::Time(0)` is `0`.
-/

namespace Rosbag

/-- A timestamp (`ros::Time`), totally ordered; epoch zero is `0`. -/
abbrev Time := Nat

/-- One record of a recording: as in `rosbag::MessageInstance`, it carries
its topic (channel name), timestamp, declared datatype (payload schema
identifier), raw payload bytes, and the connection header. -/
structure Record where
  topic : String
  time : Time
  datatype : String
  payload : List Nat
  header : List (String × String)
deriving DecidableEq

/-- A recording ("bag"): its chronologically ordered sequence of records.
Connections are derived from the records, matching
`rosbag::View::getConnections`, which only reports connections having at
least one record in range. -/
structure Bag where
  records : List Record
deriving DecidableEq

/-- `rosbag::View(bag)` with no query: every record of the bag. -/
def viewAll (b : Bag) : List Record :=
  b.records

/-- `rosbag::View(bag, TopicQuery(topics))`: the records whose topic is a
member of `topics`.  An empty `topics` list matches nothing. -/
def viewTopics (b : Bag) (topics : List String) : List Record :=
  b.records.filter (fun r => topics.contains r.topic)

/-- `rosbag::View(bag, TopicQuery(topics), start, stop)`: the records whose
topic is a member of `topics` and whose timestamp lies in the closed
interval `[start, stop]` (the library's index bounds are inclusive at both
ends). -/
def viewTopicsTime (b : Bag) (topics : List String) (start stop : Time) :
    List Record :=
  b.records.filter
    (fun r => topics.contains r.topic
      && decide (start ≤ r.time) && decide (r.time ≤ stop))

/-- The connection set a view reports (`View::getConnections`): one
`(topic, datatype)` entry per topic occurring among the view's records. -/
def connectionsOf : List Record → List (String × String)
  | [] => []
  | r :: rest =>
      if rest.any (fun x => x.topic == r.topic) then connectionsOf rest
      else (r.topic, r.datatype) :: connectionsOf rest

/-- Assignment into a `std::map<std::string, std::string>` kept as an
association list strictly sorted by key: `m[k] = v`. -/
def mapInsert (k v : String) : List (String × String) → List (String × String)
  | [] => [(k, v)]
  | (k₁, v₁) :: rest =>
      if k < k₁ then (k, v) :: (k₁, v₁) :: rest
      else if k = k₁ then (k, v) :: rest
      else (k₁, v₁) :: mapInsert k v rest

/-- `_connections.clear()` followed by `_connections[topic] = datatype` for
each connection of the view (rosbag_io.cpp lines 39–43). -/
def buildConnections (conns : List (String × String)) :
    List (String × String) :=
  conns.foldl (fun m kv => mapInsert kv.1 kv.2 m) []

/-- The key sequence of a `ConnectionsMap`. -/
def keysOf (m : List (String × String)) : List String :=
  m.map Prod.fst

/-- The state of one `rosbag_io` object: `_bag` (none until a bag has been
opened by `load`), `_view` (a null `shared_ptr` until `load`), and
`_connections` (a default-constructed empty map). -/
structure Session where
  bag : Option Bag
  view : Option (List Record)
  connections : List (String × String)
deriving DecidableEq

/-- A freshly constructed `rosbag_io` object (state Created). -/
def initialSession : Session :=
  { bag := none, view := none, connections := [] }

/-- The view `load` constructs (rosbag_io.cpp lines 30–37): the whole bag
when `topics` is empty, else a `TopicQuery(topics)` view. -/
def loadView (b : Bag) (topics : List String) : List Record :=
  if topics.isEmpty then viewAll b else viewTopics b topics

/-- `rosbag_io::load` (rosbag_io.cpp lines 17–44): opens the bag, builds
`_view` from the requested topic set, and rebuilds `_connections` from the
view's connections.  Previous session state is fully replaced. -/
def load (_s : Session) (b : Bag) (topics : List String) : Session :=
  let v := loadView b topics
  { bag := some b
    view := some v
    connections := buildConnections (connectionsOf v) }

/-- `rosbag_io::get_connections` (lines 46–49): returns `_connections`. -/
def get_connections (s : Session) : List (String × String) :=
  s.connections

/-- `rosbag_io::get_topics` (lines 51–59): the keys of `_connections`, in
map iteration order. -/
def get_topics (s : Session) : List String :=
  keysOf s.connections

/-- Time range of a view (rosbag_io.cpp lines 61–72): the sentinel
`(Time(0), Time(0))` when the view is empty, otherwise
`(getBeginTime, getEndTime)` — the least and greatest timestamp among the
view's records. -/
def timeRangeOfView : List Record → Time × Time
  | [] => (0, 0)
  | r :: rs =>
      (rs.foldl (fun a x => min a x.time) r.time,
       rs.foldl (fun a x => max a x.time) r.time)

/-- `rosbag_io::get_time_range`: dereferences `_view`; `none` models the
null-pointer dereference that happens before any `load`. -/
def get_time_range (s : Session) : Option (Time × Time) :=
  s.view.map timeRangeOfView

/-- The export view `dump` builds (rosbag_io.cpp lines 89–106): first the
topic-filtered view (whole bag when `topics` is empty), then, whenever the
requested range differs from the sentinel `(0, 0)`, the view is REPLACED by
`View(_bag, TopicQuery(topics), start, stop)` — note the topic query is
passed even when `topics` is empty. -/
def dumpView (b : Bag) (topics : List String) (tr : Time × Time) :
    List Record :=
  let v := if topics.isEmpty then viewAll b else viewTopics b topics
  if tr.1 ≠ 0 ∨ tr.2 ≠ 0 then viewTopicsTime b topics tr.1 tr.2
  else v

/-- One iteration of the streaming loop (rosbag_io.cpp line 110):
`out_bag.write(msg.getTopic(), msg.getTime(), msg, msg.getConnectionHeader())`
appends to the output bag a record built from the message's topic,
timestamp, payload (with its datatype) and connection header. -/
def writeRecord (msg : Record) : Record :=
  { topic := msg.topic
    time := msg.time
    datatype := msg.datatype
    payload := msg.payload
    header := msg.header }

/-- `rosbag_io::dump` (rosbag_io.cpp lines 74–114): streams every record of
the export view into a fresh output bag, in view order.  The result is the
record list of the output bag; `none` models the failure of the `View`
constructor when no bag has been opened by `load`. -/
def dump (s : Session) (topics : List String) (tr : Time × Time) :
    Option (List Record) :=
  s.bag.map (fun b => (dumpView b topics tr).map writeRecord)

/-- Modelled from the spec: the two-argument `dump` overload is declared at
include/rosbag_io.h lines 71–80 but has no definition under src/; per the
header ("exports all messages without time filtering") and spec §4.4 it
exports the selected topics with no time filter applied. -/
def dumpNoRange (s : Session) (topics : List String) : Option (List Record) :=
  s.bag.map (fun b =>
    ((if topics.isEmpty then viewAll b else viewTopics b topics)).map
      writeRecord)

/-- The ten-records-per-channel example recording of spec §8: channels
"/a" and "/b", one record each at whole seconds 0‥9, chronological order. -/
def mkRec (t : String) (n : Nat) : Record :=
  { topic := t, time := n, datatype := "std_msgs/String"
    payload := [n], header := [("topic", t)] }

/-- The scenario bag of spec §8. -/
def bag10 : Bag :=
  { records :=
      [mkRec "/a" 0, mkRec "/b" 0, mkRec "/a" 1, mkRec "/b" 1,
       mkRec "/a" 2, mkRec "/b" 2, mkRec "/a" 3, mkRec "/b" 3,
       mkRec "/a" 4, mkRec "/b" 4, mkRec "/a" 5, mkRec "/b" 5,
       mkRec "/a" 6, mkRec "/b" 6, mkRec "/a" 7, mkRec "/b" 7,
       mkRec "/a" 8, mkRec "/b" 8, mkRec "/a" 9, mkRec "/b" 9] }

/-! ### Basic lemmas about the embedded operations -/

@[simp]
theorem keysOf_nil : keysOf [] = [] :=
  rfl

@[simp]
theorem keysOf_cons (p : String × String) (m : List (String × String)) :
    keysOf (p :: m) = p.1 :: keysOf m :=
  rfl

/-- The streaming write copies every field of the message unchanged. -/
theorem writeRecord_eq_self (msg : Record) : writeRecord msg = msg :=
  rfl

/-- Streaming a whole view writes it unchanged. -/
theorem map_writeRecord (l : List Record) : l.map writeRecord = l := by
  induction l with
  | nil => rfl
  | cons r rest ih => simp [writeRecord_eq_self, ih]

/-- With a non-sentinel time range the export view is the time-bounded,
topic-queried view. -/
theorem dumpView_of_ne (b : Bag) (ts : List String) (t₁ t₂ : Time)
    (h : t₁ ≠ 0 ∨ t₂ ≠ 0) :
    dumpView b ts (t₁, t₂) = viewTopicsTime b ts t₁ t₂ := by
  unfold dumpView
  exact if_pos h

/-- With the sentinel range the export view is the plain topic view. -/
theorem dumpView_sentinel (b : Bag) (ts : List String) :
    dumpView b ts (0, 0) =
      if ts.isEmpty then viewAll b else viewTopics b ts := by
  unfold dumpView
  exact if_neg (by simp)

/-- Map assignment only adds the assigned key to the key set. -/
theorem mem_keysOf_mapInsert (k v t : String) (m : List (String × String)) :
    t ∈ keysOf (mapInsert k v m) ↔ t = k ∨ t ∈ keysOf m := by
  induction m with
  | nil => simp [mapInsert]
  | cons p rest ih =>
      obtain ⟨k₁, v₁⟩ := p
      by_cases h₁ : k < k₁
      · have hm : mapInsert k v ((k₁, v₁) :: rest) =
            (k, v) :: (k₁, v₁) :: rest := by
          simp only [mapInsert]
          rw [if_pos h₁]
        rw [hm]
        simp only [keysOf_cons, List.mem_cons]
      · by_cases h₂ : k = k₁
        · subst h₂
          have hm : mapInsert k v ((k, v₁) :: rest) = (k, v) :: rest := by
            simp only [mapInsert]
            rw [if_neg h₁]
            simp
          rw [hm]
          simp only [keysOf_cons, List.mem_cons]
          tauto
        · have hm : mapInsert k v ((k₁, v₁) :: rest) =
              (k₁, v₁) :: mapInsert k v rest := by
            simp only [mapInsert]
            rw [if_neg h₁, if_neg h₂]
          rw [hm]
          simp only [keysOf_cons, List.mem_cons, ih]
          tauto

/-- Keys of the map built by folding assignments over a connection list:
the starting keys together with the listed keys. -/
theorem mem_keysOf_foldl (l : List (String × String))
    (m₀ : List (String × String)) (t : String) :
    t ∈ keysOf (l.foldl (fun m kv => mapInsert kv.1 kv.2 m) m₀) ↔
      t ∈ keysOf m₀ ∨ ∃ p ∈ l, p.1 = t := by
  induction l generalizing m₀ with
  | nil => simp
  | cons q rest ih =>
      simp only [List.foldl_cons]
      rw [ih, mem_keysOf_mapInsert]
      simp only [List.mem_cons]
      constructor
      · rintro ((rfl | hm) | ⟨p, hp, rfl⟩)
        · exact Or.inr ⟨q, Or.inl rfl, rfl⟩
        · exact Or.inl hm
        · exact Or.inr ⟨p, Or.inr hp, rfl⟩
      · rintro (hm | ⟨p, (rfl | hp), rfl⟩)
        · exact Or.inl (Or.inr hm)
        · exact Or.inl (Or.inl rfl)
        · exact Or.inr ⟨p, hp, rfl⟩

/-- Keys of the `ConnectionsMap` built from a connection list. -/
theorem mem_keysOf_buildConnections (l : List (String × String)) (t : String) :
    t ∈ keysOf (buildConnections l) ↔ ∃ p ∈ l, p.1 = t := by
  rw [buildConnections, mem_keysOf_foldl]
  simp

/-- A topic is among a view's connections iff some record of the view is on
that topic. -/
theorem mem_keysOf_connectionsOf (v : List Record) (t : String) :
    t ∈ keysOf (connectionsOf v) ↔ ∃ r ∈ v, r.topic = t := by
  induction v with
  | nil => simp [connectionsOf]
  | cons r rest ih =>
      by_cases h : rest.any (fun x => x.topic == r.topic) = true
      · obtain ⟨x, hx, hxt⟩ := List.any_eq_true.mp h
        rw [beq_iff_eq] at hxt
        have hco : connectionsOf (r :: rest) = connectionsOf rest := by
          simp only [connectionsOf]
          exact if_pos h
        rw [hco, ih]
        simp only [List.mem_cons]
        constructor
        · rintro ⟨p, hp, rfl⟩
          exact ⟨p, Or.inr hp, rfl⟩
        · rintro ⟨p, (rfl | hp), rfl⟩
          · exact ⟨x, hx, hxt⟩
          · exact ⟨p, hp, rfl⟩
      · have hco : connectionsOf (r :: rest) =
            (r.topic, r.datatype) :: connectionsOf rest := by
          simp only [connectionsOf]
          exact if_neg h
        rw [hco, keysOf_cons, List.mem_cons, ih]
        simp only [List.mem_cons]
        constructor
        · rintro (rfl | ⟨p, hp, rfl⟩)
          · exact ⟨r, Or.inl rfl, rfl⟩
          · exact ⟨p, Or.inr hp, rfl⟩
        · rintro ⟨p, (rfl | hp), rfl⟩
          · exact Or.inl rfl
          · exact Or.inr ⟨p, hp, rfl⟩

/-- The topics visible after a `load`, characterised by membership. -/
theorem mem_get_topics_load (s : Session) (b : Bag) (S : List String)
    (t : String) :
    t ∈ get_topics (load s b S) ↔ ∃ r ∈ loadView b S, r.topic = t := by
  show t ∈ keysOf (buildConnections (connectionsOf (loadView b S))) ↔ _
  rw [mem_keysOf_buildConnections]
  constructor
  · rintro ⟨p, hp, rfl⟩
    exact (mem_keysOf_connectionsOf _ _).mp (List.mem_map_of_mem Prod.fst hp)
  · intro hr
    obtain ⟨p, hp, hpt⟩ :=
      List.mem_map.mp ((mem_keysOf_connectionsOf _ _).mpr hr)
    exact ⟨p, hp, hpt⟩

/-- Map assignment keeps the key list strictly sorted. -/
theorem pairwise_keysOf_mapInsert (k v : String)
    (m : List (String × String))
    (h : (keysOf m).Pairwise (fun a c => a < c)) :
    (keysOf (mapInsert k v m)).Pairwise (fun a c => a < c) := by
  induction m with
  | nil => simp [mapInsert]
  | cons p rest ih =>
      obtain ⟨k₁, v₁⟩ := p
      simp only [keysOf_cons, List.pairwise_cons] at h
      obtain ⟨h₁, h₂⟩ := h
      by_cases hlt : k < k₁
      · have hm : mapInsert k v ((k₁, v₁) :: rest) =
            (k, v) :: (k₁, v₁) :: rest := by
          simp only [mapInsert]
          rw [if_pos hlt]
        rw [hm]
        simp only [keysOf_cons, List.pairwise_cons]
        refine ⟨?_, h₁, h₂⟩
        intro x hx
        rcases List.mem_cons.mp hx with rfl | hx
        · exact hlt
        · exact lt_trans hlt (h₁ x hx)
      · by_cases heq : k = k₁
        · subst heq
          have hm : mapInsert k v ((k, v₁) :: rest) = (k, v) :: rest := by
            simp only [mapInsert]
            rw [if_neg hlt]
            simp
          rw [hm]
          simp only [keysOf_cons, List.pairwise_cons]
          exact ⟨h₁, h₂⟩
        · have hgt : k₁ < k := by
            rcases lt_trichotomy k k₁ with h' | h' | h'
            · exact absurd h' hlt
            · exact absurd h' heq
            · exact h'
          have hm : mapInsert k v ((k₁, v₁) :: rest) =
              (k₁, v₁) :: mapInsert k v rest := by
            simp only [mapInsert]
            rw [if_neg hlt, if_neg heq]
          rw [hm]
          simp only [keysOf_cons, List.pairwise_cons]
          refine ⟨?_, ih h₂⟩
          intro x hx
          rcases (mem_keysOf_mapInsert k v x rest).mp hx with rfl | hx
          · exact hgt
          · exact h₁ x hx

/-- Folding assignments over any connection list keeps the key list
strictly sorted. -/
theorem pairwise_keysOf_foldl (l : List (String × String)) :
    ∀ m₀ : List (String × String),
      (keysOf m₀).Pairwise (fun a c => a < c) →
      (keysOf (l.foldl (fun m kv => mapInsert kv.1 kv.2 m) m₀)).Pairwise
        (fun a c => a < c) := by
  induction l with
  | nil =>
      intro m₀ h
      simpa using h
  | cons q rest ih =>
      intro m₀ h
      simp only [List.foldl_cons]
      exact ih _ (pairwise_keysOf_mapInsert q.1 q.2 m₀ h)

/-! ### Claim theorems -/

/-- Claim C1: the claim states that `dump` with an empty channel set and a
non-sentinel time range exports records from all channels, restricted only
by the time filter.  The code instead rebuilds the export view with
`TopicQuery(topics)` where `topics` is empty, which matches no channel: at
the scenario bag the output is empty, although 8 of its records lie in the
requested window `[3, 6]`.  This contradicts the header documentation
"empty for all topics" (include/rosbag_io.h line 63). -/
theorem C1_code_eval :
    dump (load initialSession bag10 []) [] (3, 6) = some [] ∧
    (bag10.records.filter
        (fun r => decide (3 ≤ r.time) && decide (r.time ≤ 6))).length = 8 := by
  constructor
  · rfl
  · rfl

/-- Claim C5: every record streamed by `dump` is written verbatim — the
output bag's record list equals the export view's record list, in the
view's iteration order, with channel name, timestamp, payload and
connection header unchanged. -/
theorem C5_verbatim (s : Session) (b : Bag) (ts₀ ts : List String)
    (tr : Time × Time) :
    dump (load s b ts₀) ts tr = some (dumpView b ts tr) := by
  simp [dump, load, map_writeRecord]

/-- Claim C7 counterexample: on a freshly constructed session (state
Created, no `load` performed) `get_topics` and `get_connections` succeed
and return empty results — they do not fail with `NotLoadedError` as the
claim states. -/
theorem C7_counterexample :
    get_topics initialSession = [] ∧ get_connections initialSession = [] :=
  ⟨rfl, rfl⟩

/-- Claim C7 amended: before any successful `load`, `get_connections` and
`get_topics` succeed and return empty results (the `ConnectionsMap` is
default-constructed empty); `get_time_range` dereferences the null `_view`
pointer and `dump` constructs a view over the unopened `_bag`, neither of
which produces a defined result (modelled as `none`) — no `NotLoadedError`
exists in the code. -/
theorem C7_amended (ts : List String) (tr : Time × Time) :
    get_topics initialSession = [] ∧
    get_connections initialSession = [] ∧
    get_time_range initialSession = none ∧
    dump initialSession ts tr = none :=
  ⟨rfl, rfl, rfl, rfl⟩

/-- Claim C8 counterexample: `dump` with end before start (range `(6, 3)`
on the loaded scenario bag) succeeds and silently produces an empty output
recording; it does not fail with `InvalidRangeError` as the claim states. -/
theorem C8_counterexample :
    dump (load initialSession bag10 []) ["/a"] (6, 3) = some [] := by
  rfl

/-- Claim C8 amended: a time range whose end precedes its start is not
rejected anywhere — neither the binding layer (which only checks tuple
arity) nor `dump` raises an `InvalidRangeError`; the export view simply
matches no record (no timestamp satisfies `start ≤ t ≤ end`) and `dump`
succeeds with an empty output recording. -/
theorem C8_amended (s : Session) (b : Bag) (ts : List String) (t₁ t₂ : Time)
    (h : t₂ < t₁) :
    dump (load s b []) ts (t₁, t₂) = some [] := by
  have h₁ : t₁ ≠ 0 ∨ t₂ ≠ 0 := by
    left
    intro h0
    rw [h0] at h
    exact Nat.not_lt_zero t₂ h
  have hnil : viewTopicsTime b ts t₁ t₂ = [] := by
    rw [viewTopicsTime, List.filter_eq_nil_iff]
    intro r _
    simp only [Bool.and_eq_true, decide_eq_true_eq, not_and]
    rintro ⟨-, h₂⟩ h₃
    exact absurd (le_trans h₂ h₃) (not_le.mpr h)
  simp [dump, load, dumpView_of_ne _ _ _ _ h₁, hnil]

/-- Claim C8 amended, witness at a concrete input. -/
theorem C8_amended_witness :
    dump (load initialSession bag10 []) ["/b"] (7, 2) = some [] :=
  C8_amended initialSession bag10 ["/b"] 7 2 (by decide)

/-- Claim C9: the two-argument `dump` overload (no time-range argument,
modelled from the spec since only its declaration is under src/) produces
exactly the same output recording as the full form called with the
unbounded sentinel range `(0, 0)`. -/
theorem C9_overload (s : Session) (ts : List String) :
    dumpNoRange s ts = dump s ts (0, 0) := by
  unfold dumpNoRange dump
  have hv : ∀ bg : Bag, dumpView bg ts (0, 0) =
      if ts.isEmpty then viewAll bg else viewTopics bg ts :=
    fun bg => dumpView_sentinel bg ts
  simp only [hv]

/-- Claim C2: after `load(R, S)`, `get_topics()` contains exactly the
channels of `R` that are in `S` when `S` is non-empty, and exactly the
channels of `R` when `S` is empty; a requested channel absent from `R`
simply yields no entry. -/
theorem C2_load_topics (s : Session) (b : Bag) (S : List String)
    (t : String) :
    t ∈ get_topics (load s b S) ↔
      (∃ r ∈ b.records, r.topic = t) ∧ (S = [] ∨ t ∈ S) := by
  rw [mem_get_topics_load]
  unfold loadView
  by_cases hS : S.isEmpty = true
  · rw [List.isEmpty_iff] at hS
    subst hS
    simp [viewAll]
  · have hne : ¬S = [] := by
      intro h0
      subst h0
      exact hS rfl
    rw [if_neg hS]
    unfold viewTopics
    constructor
    · rintro ⟨r, hr, rfl⟩
      have hm := List.mem_filter.mp hr
      exact ⟨⟨r, hm.1, rfl⟩, Or.inr (List.elem_iff.mp hm.2)⟩
    · rintro ⟨⟨r, hr, rfl⟩, hS' | hS'⟩
      · exact absurd hS' hne
      · exact ⟨r, List.mem_filter.mpr ⟨hr, List.elem_iff.mpr hS'⟩, rfl⟩

/-- Claim C3: with a non-sentinel range `(t₁, t₂)` and channel set `{c}`,
`dump` exports exactly the source records on `c` whose timestamp lies in
the closed interval `[t₁, t₂]` (both endpoints included); on the scenario
bag (channels "/a", "/b", ten records each at seconds 0‥9),
`dump(out, ["/a"], (3, 6))` yields exactly four records, all on "/a", at
timestamps 3, 4, 5, 6. -/
theorem C3_time_filter (b : Bag) (c : String) (t₁ t₂ : Time)
    (h : ¬(t₁ = 0 ∧ t₂ = 0)) :
    (∀ r : Record, r ∈ dumpView b [c] (t₁, t₂) ↔
      r ∈ b.records ∧ r.topic = c ∧ t₁ ≤ r.time ∧ r.time ≤ t₂) ∧
    (dumpView bag10 ["/a"] (3, 6)).map (fun r => (r.topic, r.time)) =
      [("/a", 3), ("/a", 4), ("/a", 5), ("/a", 6)] := by
  constructor
  · intro r
    have hc : t₁ ≠ 0 ∨ t₂ ≠ 0 := by
      by_cases h₁ : t₁ = 0
      · right
        intro h₂
        exact h ⟨h₁, h₂⟩
      · exact Or.inl h₁
    rw [dumpView_of_ne _ _ _ _ hc]
    unfold viewTopicsTime
    rw [List.mem_filter]
    simp only [Bool.and_eq_true, decide_eq_true_eq, List.contains_cons,
      List.contains_nil, Bool.or_false, beq_iff_eq]
    tauto
  · rfl

/-- Claim C3, witness at the scenario input. -/
theorem C3_time_filter_witness :
    (∀ r : Record, r ∈ dumpView bag10 ["/a"] (3, 6) ↔
      r ∈ bag10.records ∧ r.topic = "/a" ∧ 3 ≤ r.time ∧ r.time ≤ 6) ∧
    (dumpView bag10 ["/a"] (3, 6)).map (fun r => (r.topic, r.time)) =
      [("/a", 3), ("/a", 4), ("/a", 5), ("/a", 6)] :=
  C3_time_filter bag10 "/a" 3 6 (by decide)

/-- Claim C4: dumping with an empty channel set and the unbounded sentinel
range and then loading the produced output recording (with an empty
channel set) yields the same `ConnectionsMap` and the same count of
records per channel as the original load. -/
theorem C4_roundtrip (b : Bag) (out : List Record) (c : String)
    (h : dump (load initialSession b []) [] (0, 0) = some out) :
    get_connections (load initialSession ⟨out⟩ []) =
      get_connections (load initialSession b []) ∧
    (out.filter (fun r => r.topic == c)).length =
      ((loadView b []).filter (fun r => r.topic == c)).length := by
  have hout : out = b.records := by
    have hd : dump (load initialSession b []) [] (0, 0) = some b.records := by
      show some ((dumpView b [] (0, 0)).map writeRecord) = some b.records
      rw [dumpView_sentinel]
      simp [viewAll, map_writeRecord]
    rw [hd] at h
    exact (Option.some_inj.mp h).symm
  subst hout
  exact ⟨rfl, rfl⟩

/-- Claim C4, witness at the scenario bag. -/
theorem C4_roundtrip_witness :
    get_connections (load initialSession ⟨bag10.records⟩ []) =
      get_connections (load initialSession bag10 []) ∧
    ((bag10.records).filter (fun r => r.topic == "/a")).length =
      ((loadView bag10 []).filter (fun r => r.topic == "/a")).length :=
  C4_roundtrip bag10 bag10.records "/a" rfl

/-- Claim C6: when the current view holds zero records (for instance after
loading with a channel set none of whose channels occur in the recording),
`get_time_range` returns the sentinel `(0, 0)` instead of failing, and
`get_topics` returns the empty sequence. -/
theorem C6_empty_view (s : Session) (b : Bag) (ts : List String)
    (h : loadView b ts = []) :
    get_time_range (load s b ts) = some (0, 0) ∧
    get_topics (load s b ts) = [] := by
  constructor
  · show (some (loadView b ts)).map timeRangeOfView = some (0, 0)
    rw [h]
    rfl
  · show keysOf (buildConnections (connectionsOf (loadView b ts))) = []
    rw [h]
    rfl

/-- Claim C6, witness: loading the scenario bag with a nonexistent channel
name. -/
theorem C6_empty_view_witness :
    get_time_range (load initialSession bag10 ["nonexistent_channel"]) =
      some (0, 0) ∧
    get_topics (load initialSession bag10 ["nonexistent_channel"]) = [] :=
  C6_empty_view initialSession bag10 ["nonexistent_channel"] (by decide)

/-- Claim C10: after every `load`, `get_topics` lists the channel names in
strictly ascending lexicographic order without duplicates (the
`ConnectionsMap` is an ordered map keyed by channel name), and repeated
calls return the same sequence. -/
theorem C10_topics_sorted (s : Session) (b : Bag) (ts : List String) :
    (get_topics (load s b ts)).Pairwise (fun a c => a < c) ∧
    (get_topics (load s b ts)).Nodup ∧
    get_topics (load s b ts) = get_topics (load s b ts) := by
  have hp : (get_topics (load s b ts)).Pairwise (fun a c => a < c) := by
    show (keysOf (buildConnections
      (connectionsOf (loadView b ts)))).Pairwise (fun a c => a < c)
    exact pairwise_keysOf_foldl _ [] (by simp)
  exact ⟨hp, hp.imp (fun hl => ne_of_lt hl), rfl⟩

end Rosbag
